import Mathlib

/-
Verification development for the network-operator repository.

The core under verification is the LLDP-driven link-addressing protocol of
the `discover` command: peer-address resolution from LLDP Port-Description
TLVs (`selectMask30L3Address`), result examination (`lldpResults`),
interface enumeration (`getNetworkConfigs`), idempotent address and route
application (`configureInterfaces`, `addRoute`), MTU setting
(`interfacesSetMTU`), the gaudinet.json exporter (`GenerateGaudiNet`), the
systemd-networkd exporter (`WriteSystemdNetworkd`), and the LLDP discovery
client (`Client.Start`).

Go values are embedded as follows: `net.IP` values are `Option IPv4`
(`none` is the nil IP), `*net.IP` pointers add one more `Option` layer,
byte slices are `List Nat` with entries below 256, strings are Lean
`String`s, and the netlink / filesystem side effects are modelled by
explicit environments (oracles for the swappable function table
`networkLinkFn`) together with traces of the calls made.
-/

set_option maxRecDepth 100000

namespace NetworkOperator

/-! ## Characters, digits and string splitting

`strings.Split(s, sep)` for a one-character separator splits on every
occurrence and keeps empty fields; `splitOnChar` mirrors that on the
character list of a string. -/

def digitChar (n : Nat) : Char := Char.ofNat (48 + n)

def digitVal (c : Char) : Nat := c.toNat - 48

def splitOnCharAux (sep : Char) : List Char → List Char × List (List Char)
  | [] => ([], [])
  | c :: cs =>
    let (cur, finished) := splitOnCharAux sep cs
    if c = sep then ([], cur :: finished) else (c :: cur, finished)

def splitOnChar (sep : Char) (l : List Char) : List (List Char) :=
  (splitOnCharAux sep l).1 :: (splitOnCharAux sep l).2

/-! ## IPv4 addresses and Go `net.ParseCIDR`

`net.ParseCIDR` splits at the first slash, parses the address part with
`netip.ParseAddr` (for IPv4: four decimal octets, one to three digits,
no leading zeros, each at most 255) and the prefix part with `dtoi`
(plain decimal digits, at most the bit length). The embedding models the
IPv4 half of the parser; IPv6 inputs fall into the failure branch, which
is where non-IPv4 inputs of the claims end up as well. -/

structure IPv4 where
  a : Nat
  b : Nat
  c : Nat
  d : Nat
deriving DecidableEq, Repr

def parseDigits (l : List Char) : Option Nat :=
  if l.isEmpty then none
  else if l.all Char.isDigit then some (l.foldl (fun n c => n * 10 + digitVal c) 0)
  else none

def validOctetChars (l : List Char) : Bool :=
  decide (l.length > 0) && decide (l.length ≤ 3) && l.all Char.isDigit &&
    (decide (l.length = 1) || decide (l.headD (digitChar 0) ≠ digitChar 0))

def parseOctet (l : List Char) : Option Nat :=
  if validOctetChars l then
    match parseDigits l with
    | some n => if n ≤ 255 then some n else none
    | none => none
  else none

def parseIPv4 (l : List Char) : Option IPv4 :=
  match (splitOnChar (Char.ofNat 46) l).mapM parseOctet with
  | some [a, b, c, d] => some ⟨a, b, c, d⟩
  | _ => none

def parseCIDR (l : List Char) : Option (IPv4 × Nat) :=
  match splitOnChar (Char.ofNat 47) l with
  | [addr, maskStr] =>
    match parseIPv4 addr, parseDigits maskStr with
    | some ip, some n => if n ≤ 32 then some (ip, n) else none
    | _, _ => none
  | _ => none

/-- Decimal rendering of one octet (no leading zeros), as produced by
`net.IP.String` and `strconv.Itoa` for values below 256. -/
def octetChars (n : Nat) : List Char :=
  if n < 10 then [digitChar n]
  else if n < 100 then [digitChar (n / 10), digitChar (n % 10)]
  else [digitChar (n / 100), digitChar (n / 10 % 10), digitChar (n % 10)]

def ipv4Chars (ip : IPv4) : List Char :=
  octetChars ip.a ++ Char.ofNat 46 ::
    (octetChars ip.b ++ Char.ofNat 46 :: (octetChars ip.c ++ Char.ofNat 46 :: octetChars ip.d))

/-- Dotted-quad rendering, Go `net.IP.String` on a 4-byte address. -/
def ipv4Str (ip : IPv4) : String := String.mk (ipv4Chars ip)

/-- Canonical CIDR text `a.b.c.d/m`. -/
def ipv4CidrChars (ip : IPv4) (m : Nat) : List Char :=
  ipv4Chars ip ++ Char.ofNat 47 :: octetChars m

/-! ## The `networkConfiguration` record

One record per managed interface (`network.go`). `link` is a netlink
handle whose attributes carry name, MAC, index, flags and MTU; a `none`
link would make the Go code dereference a nil interface, and every
record built by `getNetworkConfigs` carries a link. `lldpPeer` and
`localAddr` are `*net.IP` fields that are only ever assigned pointers to
concrete parsed addresses, so a single `Option` layer suffices on the
record itself. -/

def flagUp : Nat := 1

structure LinkAttrs where
  name : String
  hwAddr : List Nat
  index : Int := 0
  flags : Nat := 0
  mtu : Int := 0
deriving DecidableEq, Repr

structure NetworkConfiguration where
  link : Option LinkAttrs := none
  origState : Nat := 0
  expectResponse : Bool := false
  portDescription : String := ""
  lldpPeer : Option IPv4 := none
  localAddr : Option IPv4 := none
  peerHWAddr : Option (List Nat) := none
  localHwAddr : Option (List Nat) := none
deriving DecidableEq, Repr

/-- Name used in log and error strings, `nwconfig.link.Attrs().Name`.
Go would panic on a nil link; all claims concern records with a link. -/
def NetworkConfiguration.linkName (nw : NetworkConfiguration) : String :=
  match nw.link with
  | some attrs => attrs.name
  | none => ""

/-- Errors produced by `selectMask30L3Address`; each constructor keeps
the data the corresponding `fmt.Errorf` interpolates. -/
inductive ResolveErr
  | splitFailed (ifname desc : String)
  | parseFailed (ifname desc : String)
  | wrongMask (ifname : String) (mask : Nat)
deriving DecidableEq, Repr

/-- Peer-address resolver, `selectMask30L3Address` in `network.go`.
Splits the port description on single spaces, parses the second token as
a CIDR, requires mask 30 and derives the local address by XOR-ing the
last octet of the peer address with 0x3. The result mirrors the Go
return triple `(*net.IP, *net.IP, error)`: the outer `Option` is pointer
nil-ness and the inner one is IP nil-ness (the mask-mismatch branch
returns a pointer to the never-assigned nil `localaddr`). -/
def selectMask30L3Address (nw : NetworkConfiguration) :
    Option (Option IPv4) × Option (Option IPv4) × Option ResolveErr :=
  match splitOnChar (Char.ofNat 32) nw.portDescription.data with
  | _ :: second :: _ =>
    match parseCIDR second with
    | none => (none, none, some (.parseFailed nw.linkName nw.portDescription))
    | some (peer, mask) =>
      if mask = 30 then
        (some (some peer), some (some ⟨peer.a, peer.b, peer.c, Nat.xor peer.d 3⟩), none)
      else
        (some (some peer), some none, some (.wrongMask nw.linkName mask))
  | _ => (none, none, some (.splitFailed nw.linkName nw.portDescription))

/-! ## Enumeration: `getNetworkConfigs`

`LinkByName` failures are logged and the name is skipped; the record map
is modelled as an association list in input order. -/

def getNetworkConfigs (linkByName : String → Option LinkAttrs) (ifacenames : List String) :
    List (String × NetworkConfiguration) :=
  ifacenames.filterMap fun name =>
    match linkByName name with
    | none => none
    | some link =>
      some (name, { link := some link, origState := link.flags,
                    localHwAddr := some link.hwAddr })

/-- Emptiness check of the combined interface list in `getConfig`
(`main.go`): zero devices is the only enumeration condition that aborts
the run. -/
def checkIfaceList (ifaces : List String) : Except Unit (List String) :=
  if ifaces.length = 0 then .error () else .ok ifaces

/-! ## Result examination: `lldpResults` -/

/-- Per-record part of the `lldpResults` loop body: on successful
resolution the peer and local addresses are stored on the record. -/
def examineOne (nw : NetworkConfiguration) : NetworkConfiguration :=
  match selectMask30L3Address nw with
  | (peerPtr, localPtr, none) =>
    { nw with lldpPeer := peerPtr.join, localAddr := localPtr.join }
  | (_, _, some _) => nw

/-- `lldpResults` in `network.go`: examines every record, stores the
resolved addresses and reports whether at least one peer was found. -/
def lldpResults (nws : List (String × NetworkConfiguration)) :
    List (String × NetworkConfiguration) × Bool :=
  match nws with
  | [] => ([], false)
  | p :: rest =>
    let (rest', found) := lldpResults rest
    ((p.1, examineOne p.2) :: rest', ((selectMask30L3Address p.2).2.2 = none) || found)

/-! ## Netlink effects

The swappable function table `networkLinkFn` is modelled as an
environment of oracles; the calls a function makes are collected in a
trace so that statements about "does not call AddrAdd again" or "still
appends the /30 route" are about the actual interaction with the OS. -/

structure Route where
  linkIndex : Int
  scope : Nat
  protocol : Nat
  dstIP : IPv4
  dstMask : Nat
  src : Option IPv4
  gw : Option IPv4
deriving DecidableEq, Repr

/-- `netlink.SCOPE_LINK`. -/
def scopeLink : Nat := 253

/-- `unix.RTPROT_KERNEL`. -/
def rtprotKernel : Nat := 2

inductive NetCall
  | addrList (ifname : String)
  | addrAdd (ifname : String) (ip : IPv4) (mask : Nat)
  | routeAppend (r : Route)
  | linkSetMTU (ifname : String) (mtu : Int)
deriving DecidableEq, Repr

/-- Result of `RouteAppend`: success, `os.ErrExist` (route already
there) or any other error. -/
inductive RouteAppendErr
  | exist
  | other
deriving DecidableEq, Repr

structure NetlinkEnv where
  addrList : String → Except Unit (List (IPv4 × Nat))
  addrAddFails : String → IPv4 → Bool
  routeAppendRes : Route → Option RouteAppendErr

def NetworkConfiguration.linkIndex (nw : NetworkConfiguration) : Int :=
  match nw.link with
  | some attrs => attrs.index
  | none => 0

/-- Byte-wise application of `net.CIDRMask(m, 32)` to an IPv4 address,
Go `IP.Mask`. -/
def maskOctet (x : Nat) (ones : Nat) : Nat := x &&& (256 - 2 ^ (8 - min ones 8))

def maskIP (ip : IPv4) (m : Nat) : IPv4 :=
  ⟨maskOctet ip.a m, maskOctet ip.b (m - 8), maskOctet ip.c (m - 16), maskOctet ip.d (m - 24)⟩

inductive AddRouteErr
  | noLocalAddress (ifname : String)
  | appendFailed
deriving DecidableEq, Repr

/-- `addRoute` in `network.go`. Builds the /30 point-to-point route
(protocol kernel, scope link, src local) or the /16 routed-network route
(gateway = discovered peer) and appends it; an `os.ErrExist` reply from
`RouteAppend` is reclassified as success. A nil `lldpPeer` with mask 16
would be a nil dereference in Go; the configuring callers only reach
this with a resolved peer. -/
def addRoute (env : NetlinkEnv) (nw : NetworkConfiguration) (mask : Nat) :
    Option AddRouteErr × List NetCall :=
  match nw.localAddr with
  | none => (some (.noLocalAddress nw.linkName), [])
  | some localAddr =>
    let networkAddr := maskIP localAddr mask
    let gw := if mask = 16 then nw.lldpPeer else none
    let scope := if mask = 30 then scopeLink else 0
    let protocol := if mask = 30 then rtprotKernel else 0
    let src := if mask = 30 then some localAddr else none
    let newRoute : Route :=
      { linkIndex := nw.linkIndex, scope := scope, protocol := protocol,
        dstIP := networkAddr, dstMask := mask, src := src, gw := gw }
    match env.routeAppendRes newRoute with
    | none => (none, [.routeAppend newRoute])
    | some .exist => (none, [.routeAppend newRoute])
    | some .other => (some .appendFailed, [.routeAppend newRoute])

/-- Body of the `configureInterfaces` loop for one record: skip without
a resolved local address; list existing IPv4 addresses; if the local
address is already present, only ensure the /30 route, otherwise add the
address (which also installs the /30 network route); finally ensure the
/16 routed-network route. Returns whether the interface counts as
configured, plus the netlink call trace. -/
def configureOne (env : NetlinkEnv) (nw : NetworkConfiguration) : Bool × List NetCall :=
  match nw.localAddr with
  | none => (false, [])
  | some localAddr =>
    match env.addrList nw.linkName with
    | .error _ => (false, [.addrList nw.linkName])
    | .ok addrs =>
      let foundExisting := addrs.any (fun a => a.1 == localAddr)
      if foundExisting then
        match addRoute env nw 30 with
        | (some _, c1) => (false, .addrList nw.linkName :: c1)
        | (none, c1) =>
          match addRoute env nw 16 with
          | (some _, c2) => (false, .addrList nw.linkName :: (c1 ++ c2))
          | (none, c2) => (true, .addrList nw.linkName :: (c1 ++ c2))
      else
        if env.addrAddFails nw.linkName localAddr then
          (false, [.addrList nw.linkName, .addrAdd nw.linkName localAddr 30])
        else
          match addRoute env nw 16 with
          | (some _, c2) =>
            (false, [.addrList nw.linkName, .addrAdd nw.linkName localAddr 30] ++ c2)
          | (none, c2) =>
            (true, [.addrList nw.linkName, .addrAdd nw.linkName localAddr 30] ++ c2)

/-- `configureInterfaces` in `network.go`: returns the configured count
and the total record count, plus the call trace. -/
def configureInterfaces (env : NetlinkEnv) (nws : List (String × NetworkConfiguration)) :
    (Nat × Nat) × List NetCall :=
  match nws with
  | [] => ((0, 0), [])
  | p :: rest =>
    let (ok, calls) := configureOne env p.2
    let ((c, t), calls') := configureInterfaces env rest
    ((c + (if ok then 1 else 0), t + 1), calls ++ calls')

/-! ## MTU -/

/-- `interfacesSetMTU` in `network.go`: issues one `LinkSetMTU` call
with the given value per record; errors are logged and dropped. -/
def interfacesSetMTU (nws : List (String × NetworkConfiguration)) (mtu : Int) : List NetCall :=
  nws.map (fun p => .linkSetMTU p.2.linkName mtu)

/-- Modelled from the spec: the caller that feeds the requested MTU to
`interfacesSetMTU` is not under src (only the callee is); the spec says
the requested value is clamped into the range 1500 to 9000, silently
correcting out-of-range input rather than failing. -/
def clampMTU (mtu : Int) : Int :=
  if mtu < 1500 then 1500 else if mtu > 9000 then 9000 else mtu

/-- Modelled from the spec: the orchestrator sets the clamped MTU
uniformly across all target interfaces. -/
def interfacesSetMTUClamped (nws : List (String × NetworkConfiguration)) (mtu : Int) :
    List NetCall :=
  interfacesSetMTU nws (clampMTU mtu)

/-! ## gaudinet.json exporter

`GenerateGaudiNet` serializes one entry per record that has both a
resolved local address and a peer MAC; `encoding/json` with its default
HTML escaping produces the byte string, fields in declaration order and
no added whitespace. -/

def hexDigitChar (n : Nat) : Char :=
  if n < 10 then Char.ofNat (48 + n) else Char.ofNat (87 + n)

def byteHexChars (b : Nat) : List Char := [hexDigitChar (b / 16 % 16), hexDigitChar (b % 16)]

/-- Go `net.HardwareAddr.String`: lowercase hex octet pairs joined by
colons, empty string for an empty address. -/
def hwAddrChars : List Nat → List Char
  | [] => []
  | [b] => byteHexChars b
  | b :: rest => byteHexChars b ++ Char.ofNat 58 :: hwAddrChars rest

def hwAddrString (mac : List Nat) : String := String.mk (hwAddrChars mac)

/-- Go `encoding/json` string escaping (HTML escaping on, as
`json.Marshal` defaults): quote, backslash and the HTML-sensitive
characters are escaped, control characters become named escapes or
`\u00xx`, and the line separators U+2028 and U+2029 are escaped. -/
def jsonEscapeChar (c : Char) : List Char :=
  if c = Char.ofNat 34 then [Char.ofNat 92, Char.ofNat 34]
  else if c = Char.ofNat 92 then [Char.ofNat 92, Char.ofNat 92]
  else if c = Char.ofNat 10 then [Char.ofNat 92, Char.ofNat 110]
  else if c = Char.ofNat 13 then [Char.ofNat 92, Char.ofNat 114]
  else if c = Char.ofNat 9 then [Char.ofNat 92, Char.ofNat 116]
  else if c.toNat < 32 || c = Char.ofNat 60 || c = Char.ofNat 62 || c = Char.ofNat 38 then
    [Char.ofNat 92, Char.ofNat 117, digitChar 0, digitChar 0] ++ byteHexChars c.toNat
  else if c.toNat = 8232 || c.toNat = 8233 then
    [Char.ofNat 92, Char.ofNat 117, digitChar 2, digitChar 0, digitChar 2] ++
      [hexDigitChar (c.toNat % 16)]
  else [c]

def jsonEscape : List Char → List Char
  | [] => []
  | c :: cs => jsonEscapeChar c ++ jsonEscape cs

def jsonQuoted (s : String) : List Char :=
  Char.ofNat 34 :: jsonEscape s.data ++ [Char.ofNat 34]

structure GaudiNetEntry where
  mac : String
  ip : String
  mask : String
  gatewayMac : String
deriving DecidableEq, Repr

def NetworkConfiguration.linkHwAddr (nw : NetworkConfiguration) : List Nat :=
  match nw.link with
  | some attrs => attrs.hwAddr
  | none => []

/-- Entry collection loop of `GenerateGaudiNet`: records without a
resolved local address or without a peer MAC are skipped with a
warning. -/
def gaudiNetEntries (nws : List (String × NetworkConfiguration)) : List GaudiNetEntry :=
  nws.filterMap fun p =>
    match p.2.localAddr with
    | none => none
    | some ip =>
      match p.2.peerHWAddr with
      | none => none
      | some peerMac =>
        some { mac := hwAddrString p.2.linkHwAddr, ip := ipv4Str ip,
               mask := "255.255.255.252", gatewayMac := hwAddrString peerMac }

def marshalGaudiEntry (e : GaudiNetEntry) : List Char :=
  "\x7b\"NIC_MAC\":".data ++ jsonQuoted e.mac ++ ",\"NIC_IP\":".data ++ jsonQuoted e.ip ++
    ",\"SUBNET_MASK\":".data ++ jsonQuoted e.mask ++ ",\"GATEWAY_MAC\":".data ++
    jsonQuoted e.gatewayMac ++ "\x7d".data

def marshalGaudiEntries : List GaudiNetEntry → List Char
  | [] => []
  | [e] => marshalGaudiEntry e
  | e :: rest => marshalGaudiEntry e ++ Char.ofNat 44 :: marshalGaudiEntries rest

/-- `GenerateGaudiNet` in `gaudinet.go`: the exact marshalled byte
string (the `json.Marshal` error branch is unreachable for this
struct). -/
def generateGaudiNet (nws : List (String × NetworkConfiguration)) : String :=
  String.mk ("\x7b\"NIC_NET_CONFIG\":[".data ++ marshalGaudiEntries (gaudiNetEntries nws) ++
    "]\x7d".data)

/-! ## systemd-networkd exporter

The filesystem is a map from file name to contents; `failSet` says
which file names `os.WriteFile` fails on. -/

abbrev FileSys := String → Option String

/-- `networkdFilename`: `filepath.Join(networkdpath, ifname + ".network")`. -/
def networkdFilename (dir ifname : String) : String := dir ++ "/" ++ ifname ++ ".network"

inductive NetworkdErr
  | noLink (ifname : String)
  | noLocalAddress (ifname : String)
  | noHwAddr (ifname : String)
  | writeFailed (filename : String)
deriving DecidableEq, Repr

/-- `checkNetworkConfig` in `systemd-networkd.go`. -/
def checkNetworkConfig (ifname : String) (nw : NetworkConfiguration) : Option NetworkdErr :=
  match nw.link with
  | none => some (.noLink ifname)
  | some attrs =>
    if nw.localAddr.isNone then some (.noLocalAddress ifname)
    else if hwAddrString attrs.hwAddr = "" then some (.noHwAddr ifname)
    else none

/-- Unit file contents written by `writeNetwork`; the `none` branches
for the local address are unreachable behind `checkNetworkConfig`. -/
def writeNetworkContent (ifname : String) (nw : NetworkConfiguration) : String :=
  let mac := hwAddrString nw.linkHwAddr
  let localStr := match nw.localAddr with | some ip => ipv4Str ip | none => ""
  let networkStr := match nw.localAddr with | some ip => ipv4Str (maskIP ip 16) | none => ""
  "[Match]\nMACAddress=" ++ mac ++ "\n\n[Network]\nDescription=Networkd configuration for " ++
    ifname ++ " created by network-operator\nAddress=" ++ localStr ++
    "/30\n\n[Route]\nDestination=" ++ networkStr ++ "/16\n"

/-- `DeleteSystemdNetworkd`: best-effort removal of the unit files of
the given interfaces. -/
def deleteSystemdNetworkd (dir : String) (names : List String) (fs : FileSys) : FileSys :=
  names.foldl (fun fs n => fun f => if f = networkdFilename dir n then none else fs f) fs

/-- First failing `checkNetworkConfig` over the records, the initial
loop of `WriteSystemdNetworkd`. -/
def firstCheckErr : List (String × NetworkConfiguration) → Option NetworkdErr
  | [] => none
  | p :: rest =>
    match checkNetworkConfig p.1 p.2 with
    | some e => some e
    | none => firstCheckErr rest

/-- Writing loop of `WriteSystemdNetworkd`: unit files are written in
order; the first write failure deletes the files already written in
this batch and aborts with the error. -/
def writeNetworkdLoop (failSet : String → Bool) (dir : String) :
    List (String × NetworkConfiguration) → List String → FileSys →
      Except NetworkdErr (List String) × FileSys
  | [], configured, fs => (.ok configured, fs)
  | p :: rest, configured, fs =>
    let filename := networkdFilename dir p.1
    if failSet filename then
      (.error (.writeFailed filename), deleteSystemdNetworkd dir configured fs)
    else
      writeNetworkdLoop failSet dir rest (configured ++ [p.1])
        (fun f => if f = filename then some (writeNetworkContent p.1 p.2) else fs f)

/-- `WriteSystemdNetworkd` in `systemd-networkd.go`. -/
def writeSystemdNetworkd (failSet : String → Bool) (dir : String)
    (nws : List (String × NetworkConfiguration)) (fs : FileSys) :
    Except NetworkdErr (List String) × FileSys :=
  match firstCheckErr nws with
  | some e => (.error e, fs)
  | none => writeNetworkdLoop failSet dir nws [] fs

/-! ## LLDP discovery client

`Client.Start` in `pkg/lldp/client.go` loops over the capture: a closed
packet channel recycles the handle and continues, a non-Ethernet packet
is skipped, the first Ethernet packet is decoded into a
`DiscoveryResult` which is sent on the channel before returning, and a
done context returns without sending. The run is modelled over the
finite sequence of events the capture delivers; an exhausted sequence
means the Go loop is still blocked listening. -/

inductive LLDPLayer
  | chassisPort (chassisIsMAC : Bool) (chassisID : List Nat) (portIsMAC : Bool) (portID : List Nat)
  | info (sysName sysDescription portDescription : String)
  | otherLayer
deriving DecidableEq, Repr

inductive CaptureEvent
  | packet (isEthernet : Bool) (layers : List LLDPLayer)
  | chanClosed
  | ctxDone
deriving DecidableEq, Repr

structure DiscoveryResult where
  interfaceName : String
  sysName : String := ""
  sysDescription : String := ""
  portDescription : String := ""
  peerMAC : Option (List Nat) := none
deriving DecidableEq, Repr

inductive StartOutcome
  | matched
  | cancelled
  | listening
deriving DecidableEq, Repr

/-- Layer walk of `Client.Start`: the chassis and port IDs contribute
the peer MAC only with a MAC-address subtype (port overriding chassis),
and the optional info group contributes the system name, the system
description and the port description. -/
def processLayers (ifname : String) (layers : List LLDPLayer) : DiscoveryResult :=
  layers.foldl
    (fun dr layer =>
      match layer with
      | .chassisPort chassisIsMAC chassisID portIsMAC portID =>
        let dr := if chassisIsMAC then { dr with peerMAC := some chassisID } else dr
        if portIsMAC then { dr with peerMAC := some portID } else dr
      | .info sysName sysDescription portDescription =>
        { dr with sysName := sysName, sysDescription := sysDescription,
                  portDescription := portDescription }
      | .otherLayer => dr)
    { interfaceName := ifname }

/-- `Client.Start` over a finite event sequence: the emitted results
and how the loop ended. -/
def clientStart (ifname : String) : List CaptureEvent → List DiscoveryResult × StartOutcome
  | [] => ([], .listening)
  | .ctxDone :: _ => ([], .cancelled)
  | .chanClosed :: rest => clientStart ifname rest
  | .packet false _ :: rest => clientStart ifname rest
  | .packet true layers :: _ => ([processLayers ifname layers], .matched)

/-! ## Lemmas about splitting and parsing -/

theorem splitOnCharAux_no_sep (sep : Char) (l : List Char) (h : sep ∉ l) :
    splitOnCharAux sep l = (l, []) := by
  induction l with
  | nil => rfl
  | cons c cs ih =>
    have hc : c ≠ sep := fun he => h (he ▸ List.mem_cons_self c cs)
    have hcs : sep ∉ cs := fun hm => h (List.mem_cons_of_mem c hm)
    simp [splitOnCharAux, ih hcs, hc]

theorem splitOnCharAux_append (sep : Char) (l₁ l₂ : List Char) (h : sep ∉ l₁) :
    splitOnCharAux sep (l₁ ++ sep :: l₂) =
      (l₁, (splitOnCharAux sep l₂).1 :: (splitOnCharAux sep l₂).2) := by
  induction l₁ with
  | nil => simp [splitOnCharAux]
  | cons c cs ih =>
    have hc : c ≠ sep := fun he => h (he ▸ List.mem_cons_self c cs)
    have hcs : sep ∉ cs := fun hm => h (List.mem_cons_of_mem c hm)
    simp [splitOnCharAux, ih hcs, hc]

theorem splitOnChar_no_sep (sep : Char) (l : List Char) (h : sep ∉ l) :
    splitOnChar sep l = [l] := by
  simp [splitOnChar, splitOnCharAux_no_sep sep l h]

theorem splitOnChar_append (sep : Char) (l₁ l₂ : List Char) (h : sep ∉ l₁) :
    splitOnChar sep (l₁ ++ sep :: l₂) = l₁ :: splitOnChar sep l₂ := by
  simp [splitOnChar, splitOnCharAux_append sep l₁ l₂ h]

theorem parseOctet_octetChars : ∀ n : Fin 256, parseOctet (octetChars n.val) = some n.val := by
  decide

theorem parseDigits_octetChars : ∀ n : Fin 256, parseDigits (octetChars n.val) = some n.val := by
  decide

theorem dot_not_mem_octetChars : ∀ n : Fin 256, Char.ofNat 46 ∉ octetChars n.val := by
  decide

theorem slash_not_mem_octetChars : ∀ n : Fin 256, Char.ofNat 47 ∉ octetChars n.val := by
  decide

theorem space_not_mem_octetChars : ∀ n : Fin 256, Char.ofNat 32 ∉ octetChars n.val := by
  decide

/-- Validity of an IPv4 quadruple: each octet is a byte. -/
def IPv4.Valid (ip : IPv4) : Prop :=
  ip.a < 256 ∧ ip.b < 256 ∧ ip.c < 256 ∧ ip.d < 256

instance (ip : IPv4) : Decidable ip.Valid := by
  unfold IPv4.Valid
  exact inferInstance

theorem parseOctet_octetChars_of_lt {n : Nat} (h : n < 256) :
    parseOctet (octetChars n) = some n := parseOctet_octetChars ⟨n, h⟩

theorem parseDigits_octetChars_of_lt {n : Nat} (h : n < 256) :
    parseDigits (octetChars n) = some n := parseDigits_octetChars ⟨n, h⟩

theorem dot_not_mem_octetChars_of_lt {n : Nat} (h : n < 256) :
    Char.ofNat 46 ∉ octetChars n := dot_not_mem_octetChars ⟨n, h⟩

theorem slash_not_mem_octetChars_of_lt {n : Nat} (h : n < 256) :
    Char.ofNat 47 ∉ octetChars n := slash_not_mem_octetChars ⟨n, h⟩

theorem space_not_mem_octetChars_of_lt {n : Nat} (h : n < 256) :
    Char.ofNat 32 ∉ octetChars n := space_not_mem_octetChars ⟨n, h⟩

theorem slash_not_mem_ipv4Chars {ip : IPv4} (h : ip.Valid) :
    Char.ofNat 47 ∉ ipv4Chars ip := by
  obtain ⟨ha, hb, hc, hd⟩ := h
  intro hmem
  rw [ipv4Chars] at hmem
  rcases List.mem_append.mp hmem with h1 | h1
  · exact slash_not_mem_octetChars_of_lt ha h1
  rcases List.mem_cons.mp h1 with h1 | h1
  · exact absurd h1 (by decide)
  rcases List.mem_append.mp h1 with h1 | h1
  · exact slash_not_mem_octetChars_of_lt hb h1
  rcases List.mem_cons.mp h1 with h1 | h1
  · exact absurd h1 (by decide)
  rcases List.mem_append.mp h1 with h1 | h1
  · exact slash_not_mem_octetChars_of_lt hc h1
  rcases List.mem_cons.mp h1 with h1 | h1
  · exact absurd h1 (by decide)
  · exact slash_not_mem_octetChars_of_lt hd h1

theorem space_not_mem_ipv4CidrChars {ip : IPv4} {m : Nat} (h : ip.Valid) (hm : m < 256) :
    Char.ofNat 32 ∉ ipv4CidrChars ip m := by
  obtain ⟨ha, hb, hc, hd⟩ := h
  intro hmem
  rw [ipv4CidrChars, ipv4Chars] at hmem
  rcases List.mem_append.mp hmem with h1 | h1
  rotate_left
  · rcases List.mem_cons.mp h1 with h1 | h1
    · exact absurd h1 (by decide)
    · exact space_not_mem_octetChars_of_lt hm h1
  rcases List.mem_append.mp h1 with h1 | h1
  · exact space_not_mem_octetChars_of_lt ha h1
  rcases List.mem_cons.mp h1 with h1 | h1
  · exact absurd h1 (by decide)
  rcases List.mem_append.mp h1 with h1 | h1
  · exact space_not_mem_octetChars_of_lt hb h1
  rcases List.mem_cons.mp h1 with h1 | h1
  · exact absurd h1 (by decide)
  rcases List.mem_append.mp h1 with h1 | h1
  · exact space_not_mem_octetChars_of_lt hc h1
  rcases List.mem_cons.mp h1 with h1 | h1
  · exact absurd h1 (by decide)
  exact space_not_mem_octetChars_of_lt hd h1

theorem parseIPv4_ipv4Chars {ip : IPv4} (h : ip.Valid) :
    parseIPv4 (ipv4Chars ip) = some ip := by
  obtain ⟨ha, hb, hc, hd⟩ := h
  rw [parseIPv4, ipv4Chars,
    splitOnChar_append _ _ _ (dot_not_mem_octetChars_of_lt ha),
    splitOnChar_append _ _ _ (dot_not_mem_octetChars_of_lt hb),
    splitOnChar_append _ _ _ (dot_not_mem_octetChars_of_lt hc),
    splitOnChar_no_sep _ _ (dot_not_mem_octetChars_of_lt hd)]
  simp [List.mapM.loop, parseOctet_octetChars_of_lt ha, parseOctet_octetChars_of_lt hb,
    parseOctet_octetChars_of_lt hc, parseOctet_octetChars_of_lt hd]

theorem parseCIDR_ipv4CidrChars {ip : IPv4} {m : Nat} (h : ip.Valid) (hm : m ≤ 32) :
    parseCIDR (ipv4CidrChars ip m) = some (ip, m) := by
  have hm256 : m < 256 := lt_of_le_of_lt hm (by norm_num)
  rw [parseCIDR, ipv4CidrChars,
    splitOnChar_append _ _ _ (slash_not_mem_ipv4Chars h),
    splitOnChar_no_sep _ _ (slash_not_mem_octetChars_of_lt hm256)]
  simp [parseIPv4_ipv4Chars h, parseDigits_octetChars_of_lt hm256, hm]

/-- Shared evaluation of `selectMask30L3Address` on a well-formed
two-token description whose second token is a canonical IPv4 CIDR. -/
theorem selectMask30L3Address_eq (nw : NetworkConfiguration) (tok : List Char) (ip : IPv4)
    (m : Nat) (htok : Char.ofNat 32 ∉ tok) (h : ip.Valid) (hm : m ≤ 32)
    (hdesc : nw.portDescription.data = tok ++ Char.ofNat 32 :: ipv4CidrChars ip m) :
    selectMask30L3Address nw =
      if m = 30 then
        (some (some ip), some (some ⟨ip.a, ip.b, ip.c, Nat.xor ip.d 3⟩), none)
      else
        (some (some ip), some none, some (.wrongMask nw.linkName m)) := by
  rw [selectMask30L3Address, hdesc, splitOnChar_append _ _ _ htok,
    splitOnChar_no_sep _ _ (space_not_mem_ipv4CidrChars h (lt_of_le_of_lt hm (by norm_num)))]
  by_cases h30 : m = 30
  · subst h30
    simp [parseCIDR_ipv4CidrChars h hm]
  · simp [parseCIDR_ipv4CidrChars h hm, h30]

/-- C1: for every port description of the form `<token> <ipv4>/30` (a
free-text first token, a single space and a canonical IPv4 CIDR with
prefix length 30), `selectMask30L3Address` returns a non-nil peer
pointer holding exactly the parsed IPv4 literal, a non-nil local
pointer holding the peer's four bytes with the last octet XOR-ed with
0x03, and a nil error; in particular `no-alert 10.210.8.122/30` yields
peer 10.210.8.122 and local 10.210.8.121. -/
theorem selectMask30L3Address_valid30 (nw : NetworkConfiguration) (tok : List Char) (ip : IPv4)
    (htok : Char.ofNat 32 ∉ tok) (h : ip.Valid)
    (hdesc : nw.portDescription.data = tok ++ Char.ofNat 32 :: ipv4CidrChars ip 30) :
    selectMask30L3Address nw =
      (some (some ip), some (some ⟨ip.a, ip.b, ip.c, Nat.xor ip.d 3⟩), none) := by
  have he := selectMask30L3Address_eq nw tok ip 30 htok h (by norm_num) hdesc
  simpa using he

/-- Witness for C1: the spec example `no-alert 10.210.8.122/30` yields
peer 10.210.8.122 and local 10.210.8.121 with no error. -/
theorem selectMask30L3Address_valid30_witness :
    selectMask30L3Address
        { link := some { name := "eth_a", hwAddr := [] },
          portDescription := "no-alert 10.210.8.122/30" } =
      (some (some ⟨10, 210, 8, 122⟩), some (some ⟨10, 210, 8, 121⟩), none) := by
  have h := selectMask30L3Address_valid30
    { link := some { name := "eth_a", hwAddr := [] },
      portDescription := "no-alert 10.210.8.122/30" }
    "no-alert".data ⟨10, 210, 8, 122⟩ (by decide) (by decide) (by decide)
  have hx : Nat.xor 122 3 = 121 := by decide
  rw [hx] at h
  exact h

/-- C2: for every port description whose second token is a canonical
IPv4 CIDR with prefix length different from 30, `selectMask30L3Address`
returns the error that names the actual prefix width found, and the
returned local address is the nil IP (the pointer is non-nil but the
address was never assigned). -/
theorem selectMask30L3Address_wrongMask (nw : NetworkConfiguration) (tok : List Char)
    (ip : IPv4) (m : Nat) (htok : Char.ofNat 32 ∉ tok) (h : ip.Valid) (hm : m ≤ 32)
    (hne : m ≠ 30)
    (hdesc : nw.portDescription.data = tok ++ Char.ofNat 32 :: ipv4CidrChars ip m) :
    selectMask30L3Address nw =
      (some (some ip), some none, some (.wrongMask nw.linkName m)) := by
  have he := selectMask30L3Address_eq nw tok ip m htok h hm hdesc
  simpa [hne] using he

/-- Witness for C2: the test vector `no-alert 10.210.8.122/16` yields
the mask-16 error and a nil local address. -/
theorem selectMask30L3Address_wrongMask_witness :
    selectMask30L3Address
        { link := some { name := "eth_a", hwAddr := [] },
          portDescription := "no-alert 10.210.8.122/16" } =
      (some (some ⟨10, 210, 8, 122⟩), some none, some (.wrongMask "eth_a" 16)) := by
  have h := selectMask30L3Address_wrongMask
    { link := some { name := "eth_a", hwAddr := [] },
      portDescription := "no-alert 10.210.8.122/16" }
    "no-alert".data ⟨10, 210, 8, 122⟩ 16 (by decide) (by decide) (by decide) (by decide)
    (by decide)
  exact h

/-- C10: when `selectMask30L3Address` fails because the prefix length
is not 30, the returned peer pointer is still non-nil and holds the
successfully parsed peer address, while the call does return an
error. -/
theorem selectMask30L3Address_peer_on_wrongMask (nw : NetworkConfiguration) (tok : List Char)
    (ip : IPv4) (m : Nat) (htok : Char.ofNat 32 ∉ tok) (h : ip.Valid) (hm : m ≤ 32)
    (hne : m ≠ 30)
    (hdesc : nw.portDescription.data = tok ++ Char.ofNat 32 :: ipv4CidrChars ip m) :
    (selectMask30L3Address nw).1 = some (some ip) ∧
      (selectMask30L3Address nw).2.2 ≠ none := by
  have he := selectMask30L3Address_eq nw tok ip m htok h hm hdesc
  rw [if_neg hne] at he
  rw [he]
  exact ⟨rfl, by simp⟩

/-- Witness for C10: with description `no-alert 10.210.8.122/24` the
peer pointer still carries 10.210.8.122 while the error is non-nil. -/
theorem selectMask30L3Address_peer_on_wrongMask_witness :
    (selectMask30L3Address
        { link := some { name := "eth_b", hwAddr := [] },
          portDescription := "no-alert 10.210.8.122/24" }).1 = some (some ⟨10, 210, 8, 122⟩) ∧
      (selectMask30L3Address
        { link := some { name := "eth_b", hwAddr := [] },
          portDescription := "no-alert 10.210.8.122/24" }).2.2 ≠ none := by
  exact selectMask30L3Address_peer_on_wrongMask
    { link := some { name := "eth_b", hwAddr := [] },
      portDescription := "no-alert 10.210.8.122/24" }
    "no-alert".data ⟨10, 210, 8, 122⟩ 24 (by decide) (by decide) (by decide) (by decide)
    (by decide)

/-- Spec-side predicate: the port description successfully parses to a
/30 CIDR (at least two space-separated tokens, second token a CIDR with
prefix length 30). -/
def parses30 (desc : String) : Bool :=
  match splitOnChar (Char.ofNat 32) desc.data with
  | _ :: second :: _ =>
    match parseCIDR second with
    | some (_, m) => m == 30
    | none => false
  | _ => false

theorem selectMask30L3Address_err_none_iff (nw : NetworkConfiguration) :
    (selectMask30L3Address nw).2.2 = none ↔ parses30 nw.portDescription = true := by
  unfold selectMask30L3Address parses30
  rcases hs : splitOnChar (Char.ofNat 32) nw.portDescription.data with _ | ⟨a, _ | ⟨second, more⟩⟩
  · simp
  · simp
  · rcases hp : parseCIDR second with _ | ⟨peer, m⟩
    · simp [hp]
    · by_cases h30 : m = 30 <;> simp [hp, h30]

theorem selectMask30L3Address_success_shape (nw : NetworkConfiguration) :
    (selectMask30L3Address nw).2.2 = none →
      ∃ peer, selectMask30L3Address nw =
        (some (some peer), some (some ⟨peer.a, peer.b, peer.c, Nat.xor peer.d 3⟩), none) := by
  unfold selectMask30L3Address
  split
  · split
    · intro h
      simp at h
    · split
      · intro _
        exact ⟨_, rfl⟩
      · intro h
        simp at h
  · intro h
    simp at h

theorem examineOne_localAddr (nw : NetworkConfiguration) (hinit : nw.localAddr = none) :
    (examineOne nw).localAddr ≠ none ↔ parses30 nw.portDescription = true := by
  by_cases h : (selectMask30L3Address nw).2.2 = none
  · obtain ⟨peer, heq⟩ := selectMask30L3Address_success_shape nw h
    rw [examineOne, heq]
    simp [← selectMask30L3Address_err_none_iff, h]
  · rcases hsel : selectMask30L3Address nw with ⟨p, l, err⟩
    cases err with
    | none => rw [hsel] at h; simp at h
    | some e =>
      rw [examineOne, hsel]
      simp only [hinit]
      rw [selectMask30L3Address_err_none_iff] at h
      simp [h]

theorem lldpResults_fst (nws : List (String × NetworkConfiguration)) :
    (lldpResults nws).1 = nws.map (fun p => (p.1, examineOne p.2)) := by
  induction nws with
  | nil => rfl
  | cons p rest ih => simp [lldpResults, ih]

/-- On the dotted-quad domain of the resolver model, a record's
localAddr is non-nil after result examination iff its portDescription
parsed to a /30 CIDR. This is the IPv4-only approximation: the full
parser including the IPv6 fallback of `net.ParseCIDR` is
`selectMask30L3AddressGo` below, where the program can instead panic
on an IPv6 /30 description. -/
theorem lldpResults_localAddr_iff (nws : List (String × NetworkConfiguration))
    (hinit : ∀ p ∈ nws, p.2.localAddr = none) :
    (lldpResults nws).1 = nws.map (fun p => (p.1, examineOne p.2)) ∧
      ∀ p ∈ nws, ((examineOne p.2).localAddr ≠ none ↔ parses30 p.2.portDescription = true) :=
  ⟨lldpResults_fst nws, fun p hp => examineOne_localAddr p.2 (hinit p hp)⟩

/-- Record list mirroring the fake network data of the repository's
tests: a /30 description, an unparseable description and another /30
description. -/
def c9List : List (String × NetworkConfiguration) :=
  [("eth_a", { link := some { name := "eth_a", hwAddr := [] },
               portDescription := "no-alert 10.210.8.122/30" }),
   ("eth_b", { link := some { name := "eth_b", hwAddr := [] },
               portDescription := "unexpected port description" }),
   ("eth_c", { link := some { name := "eth_c", hwAddr := [] },
               portDescription := "no-alert 10.210.8.126/30" })]

/-- Instance of the dotted-quad localAddr characterization on the
test-derived record list. -/
theorem lldpResults_localAddr_iff_witness :
    (lldpResults c9List).1 = c9List.map (fun p => (p.1, examineOne p.2)) ∧
      ∀ p ∈ c9List, ((examineOne p.2).localAddr ≠ none ↔ parses30 p.2.portDescription = true) :=
  lldpResults_localAddr_iff c9List (by decide)

/-- The /30 point-to-point route `addRoute` builds: protocol kernel,
scope link, source = local address, matching the route the kernel
itself installs alongside an address add. -/
def route30 (nw : NetworkConfiguration) (localAddr : IPv4) : Route :=
  { linkIndex := nw.linkIndex, scope := scopeLink, protocol := rtprotKernel,
    dstIP := maskIP localAddr 30, dstMask := 30, src := some localAddr, gw := none }

/-- The /16 routed-network route `addRoute` builds: default protocol
and scope, gateway = discovered peer. -/
def route16 (nw : NetworkConfiguration) (localAddr peer : IPv4) : Route :=
  { linkIndex := nw.linkIndex, scope := 0, protocol := 0,
    dstIP := maskIP localAddr 16, dstMask := 16, src := none, gw := some peer }

theorem addRoute_30_eq (env : NetlinkEnv) (nw : NetworkConfiguration) (localAddr : IPv4)
    (hlocal : nw.localAddr = some localAddr)
    (hres : env.routeAppendRes (route30 nw localAddr) = none ∨
      env.routeAppendRes (route30 nw localAddr) = some RouteAppendErr.exist) :
    addRoute env nw 30 = (none, [NetCall.routeAppend (route30 nw localAddr)]) := by
  rw [addRoute, hlocal]
  rcases hres with hres | hres <;>
    simp only [route30] at hres <;>
    simp [route30, hres]

theorem addRoute_16_eq (env : NetlinkEnv) (nw : NetworkConfiguration) (localAddr peer : IPv4)
    (hlocal : nw.localAddr = some localAddr) (hpeer : nw.lldpPeer = some peer)
    (hres : env.routeAppendRes (route16 nw localAddr peer) = none ∨
      env.routeAppendRes (route16 nw localAddr peer) = some RouteAppendErr.exist) :
    addRoute env nw 16 = (none, [NetCall.routeAppend (route16 nw localAddr peer)]) := by
  rw [addRoute, hlocal]
  rcases hres with hres | hres <;>
    simp only [route16] at hres <;>
    simp [route16, hpeer, hres]

/-- C3: address application is idempotent. For a record whose resolved
/30 local address is already present among the interface's IPv4
addresses, `configureInterfaces`'s per-interface body counts the
interface as configured (no error), issues no `AddrAdd` call, still
ensures the /30 point-to-point route through `addRoute`, and treats a
route-already-exists reply from `RouteAppend` as success. -/
theorem configureOne_idempotent (env : NetlinkEnv) (nw : NetworkConfiguration)
    (localAddr peer : IPv4) (addrs : List (IPv4 × Nat))
    (hlocal : nw.localAddr = some localAddr) (hpeer : nw.lldpPeer = some peer)
    (hlist : env.addrList nw.linkName = .ok addrs)
    (hfound : addrs.any (fun a => a.1 == localAddr) = true)
    (h30 : env.routeAppendRes (route30 nw localAddr) = none ∨
      env.routeAppendRes (route30 nw localAddr) = some RouteAppendErr.exist)
    (h16 : env.routeAppendRes (route16 nw localAddr peer) = none ∨
      env.routeAppendRes (route16 nw localAddr peer) = some RouteAppendErr.exist) :
    configureOne env nw =
      (true, [NetCall.addrList nw.linkName, NetCall.routeAppend (route30 nw localAddr),
              NetCall.routeAppend (route16 nw localAddr peer)]) := by
  rw [configureOne, hlocal, hlist]
  simp only [hfound, if_pos]
  rw [addRoute_30_eq env nw localAddr hlocal h30,
    addRoute_16_eq env nw localAddr peer hlocal hpeer h16]
  simp

/-- Witness for C3: a concrete record already carrying its /30 address,
with `RouteAppend` replying route-exists for both routes. -/
theorem configureOne_idempotent_witness :
    configureOne
        { addrList := fun _ => .ok [(⟨10, 210, 8, 121⟩, 30)],
          addrAddFails := fun _ _ => false,
          routeAppendRes := fun _ => some RouteAppendErr.exist }
        { link := some { name := "eth_c", hwAddr := [1, 2, 3, 4, 5, 6] },
          localAddr := some ⟨10, 210, 8, 121⟩, lldpPeer := some ⟨10, 210, 8, 122⟩ } =
      (true,
        [NetCall.addrList "eth_c",
         NetCall.routeAppend (route30
           { link := some { name := "eth_c", hwAddr := [1, 2, 3, 4, 5, 6] },
             localAddr := some ⟨10, 210, 8, 121⟩, lldpPeer := some ⟨10, 210, 8, 122⟩ }
           ⟨10, 210, 8, 121⟩),
         NetCall.routeAppend (route16
           { link := some { name := "eth_c", hwAddr := [1, 2, 3, 4, 5, 6] },
             localAddr := some ⟨10, 210, 8, 121⟩, lldpPeer := some ⟨10, 210, 8, 122⟩ }
           ⟨10, 210, 8, 121⟩ ⟨10, 210, 8, 122⟩)]) := by
  exact configureOne_idempotent _ _ ⟨10, 210, 8, 121⟩ ⟨10, 210, 8, 122⟩
    [(⟨10, 210, 8, 121⟩, 30)] rfl rfl rfl (by decide) (Or.inr rfl) (Or.inr rfl)

/-- C4 counterexample: with `eth_a` resolvable and `foo` not,
`getNetworkConfigs` returns the nonempty proper subset containing only
`eth_a` and signals no failure at all — the orchestrator continues with
the subset instead of treating the unresolved name as fatal
(matching the repository's own `TestGetNetworkConfigs`). -/
theorem getNetworkConfigs_partial_counterexample :
    (fun n => if n = "eth_a" then some ({ name := "eth_a", hwAddr := [] } : LinkAttrs)
      else none) "foo" = none ∧
    getNetworkConfigs
        (fun n => if n = "eth_a" then some { name := "eth_a", hwAddr := [] } else none)
        ["eth_a", "foo"] =
      [("eth_a", { link := some { name := "eth_a", hwAddr := [] }, origState := 0,
                   localHwAddr := some [] })] := by
  decide

/-- C4 amended: an unresolvable named interface is logged and skipped
rather than fatal: `getNetworkConfigs` returns exactly the subset of
names that resolve to links, and the only fatal enumeration condition
is an empty combined interface list (`getConfig` errors on zero
devices). -/
theorem getNetworkConfigs_subset (linkByName : String → Option LinkAttrs)
    (names : List String) :
    (getNetworkConfigs linkByName names).map Prod.fst =
      names.filter (fun n => (linkByName n).isSome) ∧
    checkIfaceList [] = .error () ∧
    (∀ l : List String, l ≠ [] → checkIfaceList l = .ok l) := by
  refine ⟨?_, rfl, ?_⟩
  · induction names with
    | nil => rfl
    | cons n rest ih =>
      cases h : linkByName n <;> simp [getNetworkConfigs, h] at ih ⊢ <;> exact ih
  · intro l hl
    rw [checkIfaceList, if_neg (by simpa using hl)]

/-- Witness for C4's amended statement at a concrete enumeration. -/
theorem getNetworkConfigs_subset_witness :
    (getNetworkConfigs
        (fun n => if n = "eth_a" then some { name := "eth_a", hwAddr := [] } else none)
        ["eth_a", "foo"]).map Prod.fst = ["eth_a"] ∧
      checkIfaceList ["eth_a"] = .ok ["eth_a"] := by
  have h := getNetworkConfigs_subset
    (fun n => if n = "eth_a" then some { name := "eth_a", hwAddr := [] } else none)
    ["eth_a", "foo"]
  refine ⟨?_, h.2.2 ["eth_a"] (by decide)⟩
  rw [h.1]
  decide

/-- C5: the MTU the orchestrator passes to `LinkSetMTU` on every target
interface is the requested value clamped into 1500 to 9000 — 1200
becomes 1500, 12000 becomes 9000, 4000 passes through — and the
out-of-range correction is silent (the call list carries no error
value). -/
theorem interfacesSetMTU_clamped (nws : List (String × NetworkConfiguration)) (mtu : Int) :
    interfacesSetMTUClamped nws mtu =
      nws.map (fun p => NetCall.linkSetMTU p.2.linkName (clampMTU mtu)) ∧
    1500 ≤ clampMTU mtu ∧ clampMTU mtu ≤ 9000 ∧
    clampMTU 1200 = 1500 ∧ clampMTU 12000 = 9000 ∧ clampMTU 4000 = 4000 := by
  refine ⟨rfl, ?_, ?_, by decide, by decide, by decide⟩ <;>
    (unfold clampMTU; split_ifs <;> omega)

/-! ## Escape lemmas for the gaudinet exporter -/

theorem jsonEscape_eq_self {l : List Char} (h : ∀ c ∈ l, jsonEscapeChar c = [c]) :
    jsonEscape l = l := by
  induction l with
  | nil => rfl
  | cons c cs ih =>
    rw [jsonEscape, h c (List.mem_cons_self c cs),
      ih (fun x hx => h x (List.mem_cons_of_mem c hx))]
    rfl

theorem hexDigitChar_escape : ∀ n : Fin 16, jsonEscapeChar (hexDigitChar n.val) = [hexDigitChar n.val] := by
  decide

theorem byteHexChars_escape (b : Nat) : ∀ c ∈ byteHexChars b, jsonEscapeChar c = [c] := by
  intro c hc
  rcases List.mem_cons.mp hc with h | h
  · rw [h]
    exact hexDigitChar_escape ⟨b / 16 % 16, Nat.mod_lt _ (by norm_num)⟩
  · rcases List.mem_cons.mp h with h | h
    · rw [h]
      exact hexDigitChar_escape ⟨b % 16, Nat.mod_lt _ (by norm_num)⟩
    · exact absurd h (List.not_mem_nil c)

theorem hwAddrChars_escape (mac : List Nat) : ∀ c ∈ hwAddrChars mac, jsonEscapeChar c = [c] := by
  induction mac with
  | nil => intro c hc; exact absurd hc (List.not_mem_nil c)
  | cons b rest ih =>
    cases rest with
    | nil => exact fun c hc => byteHexChars_escape b c hc
    | cons r rs =>
      intro c hc
      rw [show hwAddrChars (b :: r :: rs) =
        byteHexChars b ++ Char.ofNat 58 :: hwAddrChars (r :: rs) from rfl] at hc
      rcases List.mem_append.mp hc with h | h
      · exact byteHexChars_escape b c h
      · rcases List.mem_cons.mp h with h | h
        · rw [h]; decide
        · exact ih c h

theorem octetChars_escape : ∀ n : Fin 256, ∀ c ∈ octetChars n.val, jsonEscapeChar c = [c] := by
  decide

theorem ipv4Chars_escape {ip : IPv4} (h : ip.Valid) :
    ∀ c ∈ ipv4Chars ip, jsonEscapeChar c = [c] := by
  obtain ⟨ha, hb, hc, hd⟩ := h
  intro c hmem
  rw [ipv4Chars] at hmem
  rcases List.mem_append.mp hmem with h1 | h1
  · exact octetChars_escape ⟨ip.a, ha⟩ c h1
  rcases List.mem_cons.mp h1 with h1 | h1
  · rw [h1]; decide
  rcases List.mem_append.mp h1 with h1 | h1
  · exact octetChars_escape ⟨ip.b, hb⟩ c h1
  rcases List.mem_cons.mp h1 with h1 | h1
  · rw [h1]; decide
  rcases List.mem_append.mp h1 with h1 | h1
  · exact octetChars_escape ⟨ip.c, hc⟩ c h1
  rcases List.mem_cons.mp h1 with h1 | h1
  · rw [h1]; decide
  · exact octetChars_escape ⟨ip.d, hd⟩ c h1

theorem marshalGaudiEntries_single (e : GaudiNetEntry) :
    marshalGaudiEntries [e] = marshalGaudiEntry e := rfl

theorem jsonQuoted_hwAddr (mac : List Nat) :
    jsonQuoted (hwAddrString mac) = Char.ofNat 34 :: hwAddrChars mac ++ [Char.ofNat 34] := by
  rw [jsonQuoted, hwAddrString]
  rw [show (String.mk (hwAddrChars mac)).data = hwAddrChars mac from rfl,
    jsonEscape_eq_self (hwAddrChars_escape mac)]

theorem jsonQuoted_ipv4 {ip : IPv4} (h : ip.Valid) :
    jsonQuoted (ipv4Str ip) = Char.ofNat 34 :: ipv4Chars ip ++ [Char.ofNat 34] := by
  rw [jsonQuoted, ipv4Str]
  rw [show (String.mk (ipv4Chars ip)).data = ipv4Chars ip from rfl,
    jsonEscape_eq_self (ipv4Chars_escape h)]

/-- C6: a record with a known interface MAC, a resolved local address
and a peer MAC serializes through the gaudinet exporter to exactly
the byte string with key order NIC_MAC, NIC_IP, SUBNET_MASK,
GATEWAY_MAC, SUBNET_MASK always the /30 dotted quad 255.255.255.252
and no extra whitespace; a record missing the local address or the
peer MAC contributes no entry. -/
theorem generateGaudiNet_exact (name : String) (nw : NetworkConfiguration) (attrs : LinkAttrs)
    (ip : IPv4) (peerMac : List Nat) (hlink : nw.link = some attrs) (hip : ip.Valid)
    (hlocal : nw.localAddr = some ip) (hpeer : nw.peerHWAddr = some peerMac) :
    generateGaudiNet [(name, nw)] =
      "\x7b\"NIC_NET_CONFIG\":[\x7b\"NIC_MAC\":\"" ++ hwAddrString attrs.hwAddr ++
        "\",\"NIC_IP\":\"" ++ ipv4Str ip ++
        "\",\"SUBNET_MASK\":\"255.255.255.252\",\"GATEWAY_MAC\":\"" ++
        hwAddrString peerMac ++ "\"\x7d]\x7d" ∧
    ∀ (name2 : String) (nw2 : NetworkConfiguration),
      nw2.localAddr = none ∨ nw2.peerHWAddr = none →
        generateGaudiNet [(name2, nw2)] = "\x7b\"NIC_NET_CONFIG\":[]\x7d" := by
  constructor
  · have hent : gaudiNetEntries [(name, nw)] =
        [{ mac := hwAddrString attrs.hwAddr, ip := ipv4Str ip, mask := "255.255.255.252",
           gatewayMac := hwAddrString peerMac }] := by
      simp [gaudiNetEntries, hlocal, hpeer, NetworkConfiguration.linkHwAddr, hlink]
    rw [generateGaudiNet, hent]
    apply String.ext
    simp only [String.data_append]
    rw [marshalGaudiEntries_single, marshalGaudiEntry]
    rw [jsonQuoted_hwAddr, jsonQuoted_ipv4 hip, jsonQuoted_hwAddr]
    rw [show jsonQuoted "255.255.255.252" = "\"255.255.255.252\"".data from by decide]
    simp [hwAddrString, ipv4Str]
  · intro name2 nw2 h2
    have hent : gaudiNetEntries [(name2, nw2)] = [] := by
      rcases h2 with h2 | h2
      · simp [gaudiNetEntries, h2]
      · cases hl : nw2.localAddr <;> simp [gaudiNetEntries, h2, hl]
    rw [generateGaudiNet, hent]
    decide

/-- Witness for C6 on the repository's `TestGenerateGaudiNet` vector:
MAC 01:02:03:04:05:06, local address 10.120.0.1, peer MAC
06:05:04:03:02:01 produce the exact expected literal. -/
theorem generateGaudiNet_exact_witness :
    generateGaudiNet
        [("eth1234",
          { link := some { name := "eth1234", hwAddr := [1, 2, 3, 4, 5, 6] },
            localAddr := some ⟨10, 120, 0, 1⟩,
            peerHWAddr := some [6, 5, 4, 3, 2, 1] })] =
      "\x7b\"NIC_NET_CONFIG\":[\x7b\"NIC_MAC\":\"01:02:03:04:05:06\",\"NIC_IP\":\"10.120.0.1\",\"SUBNET_MASK\":\"255.255.255.252\",\"GATEWAY_MAC\":\"06:05:04:03:02:01\"\x7d]\x7d" := by
  have h := generateGaudiNet_exact "eth1234"
    { link := some { name := "eth1234", hwAddr := [1, 2, 3, 4, 5, 6] },
      localAddr := some ⟨10, 120, 0, 1⟩, peerHWAddr := some [6, 5, 4, 3, 2, 1] }
    { name := "eth1234", hwAddr := [1, 2, 3, 4, 5, 6] } ⟨10, 120, 0, 1⟩ [6, 5, 4, 3, 2, 1]
    rfl (by decide) rfl rfl
  rw [h.1]
  decide

/-! ## Rollback lemmas for the systemd-networkd exporter -/

theorem deleteSystemdNetworkd_cons (dir : String) (m : String) (ms : List String)
    (fs : FileSys) :
    deleteSystemdNetworkd dir (m :: ms) fs =
      deleteSystemdNetworkd dir ms
        (fun f => if f = networkdFilename dir m then none else fs f) := rfl

theorem deleteSystemdNetworkd_preserves_none (dir : String) (names : List String)
    (fs : FileSys) (f : String) (h : fs f = none) :
    deleteSystemdNetworkd dir names fs f = none := by
  induction names generalizing fs with
  | nil => exact h
  | cons m ms ih =>
    rw [deleteSystemdNetworkd_cons]
    exact ih _ (by by_cases hf : f = networkdFilename dir m <;> simp [hf, h])

theorem deleteSystemdNetworkd_mem (dir : String) (names : List String) (fs : FileSys)
    (n : String) (h : n ∈ names) :
    deleteSystemdNetworkd dir names fs (networkdFilename dir n) = none := by
  induction names generalizing fs with
  | nil => exact absurd h (List.not_mem_nil n)
  | cons m ms ih =>
    rw [deleteSystemdNetworkd_cons]
    rcases List.mem_cons.mp h with h | h
    · subst h
      exact deleteSystemdNetworkd_preserves_none dir ms _ _ (by simp)
    · exact ih _ h

theorem writeNetworkdLoop_fail (failSet : String → Bool) (dir : String)
    (pre : List (String × NetworkConfiguration)) (bad : String × NetworkConfiguration)
    (rest : List (String × NetworkConfiguration)) (acc : List String) (fs : FileSys)
    (hpre : ∀ p ∈ pre, failSet (networkdFilename dir p.1) = false)
    (hbad : failSet (networkdFilename dir bad.1) = true) :
    (writeNetworkdLoop failSet dir (pre ++ bad :: rest) acc fs).1 =
      .error (.writeFailed (networkdFilename dir bad.1)) ∧
    ∀ n ∈ acc ++ pre.map Prod.fst,
      (writeNetworkdLoop failSet dir (pre ++ bad :: rest) acc fs).2
        (networkdFilename dir n) = none := by
  induction pre generalizing acc fs with
  | nil =>
    simp only [List.nil_append]
    rw [writeNetworkdLoop, if_pos hbad]
    exact ⟨rfl, fun n hn => deleteSystemdNetworkd_mem dir acc fs n (by simpa using hn)⟩
  | cons p pre' ih =>
    rw [List.cons_append, writeNetworkdLoop,
      if_neg (by simp [hpre p (List.mem_cons_self p pre')])]
    have ih2 := ih (acc ++ [p.1])
      (fun f => if f = networkdFilename dir p.1 then some (writeNetworkContent p.1 p.2)
        else fs f)
      (fun q hq => hpre q (List.mem_cons_of_mem p hq))
    refine ⟨ih2.1, fun n hn => ih2.2 n ?_⟩
    simp only [List.map_cons, List.append_assoc, List.singleton_append] at hn ⊢
    exact hn

/-- C8: if writing the unit file for any interface fails, the batch
write returns an error and every unit file already written earlier in
that same batch has been deleted from the filesystem, so no partial set
of newly written files remains. -/
theorem writeSystemdNetworkd_rollback (failSet : String → Bool) (dir : String)
    (pre : List (String × NetworkConfiguration)) (bad : String × NetworkConfiguration)
    (rest : List (String × NetworkConfiguration)) (fs : FileSys)
    (hchecks : firstCheckErr (pre ++ bad :: rest) = none)
    (hpre : ∀ p ∈ pre, failSet (networkdFilename dir p.1) = false)
    (hbad : failSet (networkdFilename dir bad.1) = true) :
    (writeSystemdNetworkd failSet dir (pre ++ bad :: rest) fs).1 =
      .error (.writeFailed (networkdFilename dir bad.1)) ∧
    ∀ p ∈ pre,
      (writeSystemdNetworkd failSet dir (pre ++ bad :: rest) fs).2
        (networkdFilename dir p.1) = none := by
  rw [writeSystemdNetworkd, hchecks]
  have h := writeNetworkdLoop_fail failSet dir pre bad rest [] fs hpre hbad
  exact ⟨h.1, fun p hp => h.2 p.1 (by simpa using List.mem_map_of_mem Prod.fst hp)⟩

/-- Witness for C8: a two-interface batch whose second write fails
returns the write error with the first interface's freshly written unit
file removed again. -/
theorem writeSystemdNetworkd_rollback_witness :
    (writeSystemdNetworkd (fun f => f == "/etc/systemd/network/eth_b.network")
        "/etc/systemd/network"
        [("eth_a", { link := some { name := "eth_a", hwAddr := [1, 2, 3, 4, 5, 6] },
                     localAddr := some ⟨10, 210, 8, 121⟩ }),
         ("eth_b", { link := some { name := "eth_b", hwAddr := [6, 5, 4, 3, 2, 1] },
                     localAddr := some ⟨10, 210, 8, 125⟩ })]
        (fun _ => none)).1 =
      .error (.writeFailed "/etc/systemd/network/eth_b.network") ∧
    ∀ p ∈ [(("eth_a" : String),
        ({ link := some { name := "eth_a", hwAddr := [1, 2, 3, 4, 5, 6] },
           localAddr := some ⟨10, 210, 8, 121⟩ } : NetworkConfiguration))],
      (writeSystemdNetworkd (fun f => f == "/etc/systemd/network/eth_b.network")
          "/etc/systemd/network"
          [("eth_a", { link := some { name := "eth_a", hwAddr := [1, 2, 3, 4, 5, 6] },
                       localAddr := some ⟨10, 210, 8, 121⟩ }),
           ("eth_b", { link := some { name := "eth_b", hwAddr := [6, 5, 4, 3, 2, 1] },
                       localAddr := some ⟨10, 210, 8, 125⟩ })]
          (fun _ => none)).2 ("/etc/systemd/network" ++ "/" ++ p.1 ++ ".network") = none := by
  have h := writeSystemdNetworkd_rollback (fun f => f == "/etc/systemd/network/eth_b.network")
    "/etc/systemd/network"
    [("eth_a", { link := some { name := "eth_a", hwAddr := [1, 2, 3, 4, 5, 6] },
                 localAddr := some ⟨10, 210, 8, 121⟩ })]
    ("eth_b", { link := some { name := "eth_b", hwAddr := [6, 5, 4, 3, 2, 1] },
                localAddr := some ⟨10, 210, 8, 125⟩ })
    [] (fun _ => none) (by decide) (by decide) (by decide)
  exact ⟨h.1, h.2⟩

/-! ## LLDP client lemmas -/

theorem processLayers_foldl_interfaceName (layers : List LLDPLayer) :
    ∀ acc : DiscoveryResult,
      (layers.foldl
        (fun dr layer =>
          match layer with
          | .chassisPort chassisIsMAC chassisID portIsMAC portID =>
            let dr := if chassisIsMAC then { dr with peerMAC := some chassisID } else dr
            if portIsMAC then { dr with peerMAC := some portID } else dr
          | .info sysName sysDescription portDescription =>
            { dr with sysName := sysName, sysDescription := sysDescription,
                      portDescription := portDescription }
          | .otherLayer => dr)
        acc).interfaceName = acc.interfaceName := by
  induction layers with
  | nil => intro acc; rfl
  | cons layer rest ih =>
    intro acc
    rw [List.foldl_cons, ih]
    cases layer with
    | chassisPort chassisIsMAC chassisID portIsMAC portID =>
      by_cases h1 : chassisIsMAC <;> by_cases h2 : portIsMAC <;> simp [h1, h2]
    | info s1 s2 s3 => rfl
    | otherLayer => rfl

theorem processLayers_interfaceName (ifname : String) (layers : List LLDPLayer) :
    (processLayers ifname layers).interfaceName = ifname := by
  rw [processLayers, processLayers_foldl_interfaceName]

/-- C7 counterexample: when the shared timeout context fires before any
LLDP frame is matched, `Client.Start` terminates having emitted no
result at all — not a zero-value result — so the cancellation path
produces zero results on the channel. -/
theorem clientStart_cancel_counterexample :
    clientStart "eth_a" [CaptureEvent.ctxDone] = ([], StartOutcome.cancelled) ∧
      (clientStart "eth_a" [CaptureEvent.ctxDone]).1.length ≠ 1 := by
  decide

/-- C7 amended: per started discovery worker at most one
`DiscoveryResult` is emitted: exactly one (for the first Ethernet frame
matched, carrying the interface's name) when the run ends in a match,
and none when the shared timeout or cancellation fires first — the
caller treats the missing result as no peer found. -/
theorem clientStart_at_most_one (ifname : String) (evs : List CaptureEvent) :
    (clientStart ifname evs).1.length ≤ 1 ∧
    ((clientStart ifname evs).2 = .cancelled → (clientStart ifname evs).1 = []) ∧
    ((clientStart ifname evs).2 = .matched →
      ∃ layers, (clientStart ifname evs).1 = [processLayers ifname layers]) ∧
    ∀ dr ∈ (clientStart ifname evs).1, dr.interfaceName = ifname := by
  induction evs with
  | nil => exact ⟨by simp [clientStart], by simp [clientStart], by simp [clientStart],
      by simp [clientStart]⟩
  | cons ev rest ih =>
    cases ev with
    | ctxDone => exact ⟨by simp [clientStart], by simp [clientStart], by simp [clientStart],
        by simp [clientStart]⟩
    | chanClosed => exact ih
    | packet isEthernet layers =>
      cases isEthernet with
      | false => exact ih
      | true =>
        refine ⟨by simp [clientStart], by simp [clientStart],
          fun _ => ⟨layers, by simp [clientStart]⟩, ?_⟩
        intro dr hdr
        rw [show (clientStart ifname (CaptureEvent.packet true layers :: rest)).1 =
          [processLayers ifname layers] from rfl] at hdr
        rcases List.mem_cons.mp hdr with h | h
        · rw [h]
          exact processLayers_interfaceName ifname layers
        · exact absurd h (List.not_mem_nil dr)

/-- Witness for C7's amended statement: a cancellation after a handle
recycle emits nothing. -/
theorem clientStart_at_most_one_witness :
    (clientStart "eth_a" [CaptureEvent.chanClosed, CaptureEvent.ctxDone]).1.length ≤ 1 ∧
      (clientStart "eth_a" [CaptureEvent.chanClosed, CaptureEvent.ctxDone]).1 = [] := by
  have h := clientStart_at_most_one "eth_a" [CaptureEvent.chanClosed, CaptureEvent.ctxDone]
  exact ⟨h.1, h.2.1 (by decide)⟩

/-! ## Full `net.ParseCIDR` model including the IPv6 fallback

`net.ParseCIDR` parses the address part with `netip.ParseAddr`, which
dispatches on the first `.`, `:` or `%` it sees: a dot means IPv4, a
colon means IPv6, a percent (or neither) is a failure. IPv6 addresses
are sixteen bytes: colon-separated fields of one to four hex digits, at
most one `::` standing for a run of zero fields, and an optional
trailing embedded dotted-quad replacing the final two fields. The
prefix length of an IPv6 CIDR may go up to 128, and `Mask.Size` then
reports it unchanged — so `::1/30` passes the resolver's `mask == 30`
check. The resolver then calls `To4()`, which is nil for any 16-byte
address outside the `::ffff:a.b.c.d` v4-mapped block, and `peer[0]`
panics on that nil slice. `selectMask30L3AddressGo` below models the
resolver over this full parser, with an explicit `panicked` outcome. -/

def hexVal (c : Char) : Option Nat :=
  if 48 ≤ c.toNat ∧ c.toNat ≤ 57 then some (c.toNat - 48)
  else if 97 ≤ c.toNat ∧ c.toNat ≤ 102 then some (c.toNat - 87)
  else if 65 ≤ c.toNat ∧ c.toNat ≤ 70 then some (c.toNat - 55)
  else none

/-- Hex-field scan of `netip.parseIPv6`: consume hex digits into an
accumulator, failing once the value reaches 2^16; returns the value,
the digit count and the unconsumed rest. -/
def hexFieldAux : List Char → Nat → Nat → Option (Nat × Nat × List Char)
  | [], acc, cnt => some (acc, cnt, [])
  | c :: cs, acc, cnt =>
    match hexVal c with
    | none => some (acc, cnt, c :: cs)
    | some v =>
      let acc2 := acc * 16 + v
      if acc2 > 65535 then none else hexFieldAux cs acc2 (cnt + 1)

/-- Field loop of `netip.parseIPv6` over the remaining input, the bytes
collected so far and the position of a `::` if one was seen. Each
iteration appends at least two bytes, so the byte count bounds the
iterations; the fuel is ample for the sixteen-byte limit. -/
def parseIPv6Loop : Nat → List Char → List Nat → Option Nat → Option (List Nat × Option Nat)
  | 0, _, _, _ => none
  | fuel + 1, s, ip, ellipsis =>
    if 16 ≤ ip.length then
      if s.isEmpty then some (ip, ellipsis) else none
    else
      match hexFieldAux s 0 0 with
      | none => none
      | some (acc, cnt, rest) =>
        if cnt = 0 then none
        else
          match rest with
          | [] => some (ip ++ [acc / 256, acc % 256], ellipsis)
          | c :: rest2 =>
            if c = Char.ofNat 46 then
              if ellipsis = none ∧ ip.length ≠ 12 then none
              else if 16 < ip.length + 4 then none
              else
                match parseIPv4 s with
                | none => none
                | some q => some (ip ++ [q.a, q.b, q.c, q.d], ellipsis)
            else if c = Char.ofNat 58 then
              match rest2 with
              | [] => none
              | c2 :: rest3 =>
                let ip2 := ip ++ [acc / 256, acc % 256]
                if c2 = Char.ofNat 58 then
                  if ellipsis.isSome then none
                  else
                    match rest3 with
                    | [] => some (ip2, some ip2.length)
                    | _ :: _ => parseIPv6Loop fuel rest3 ip2 (some ip2.length)
                else parseIPv6Loop fuel rest2 ip2 ellipsis
            else none

/-- Post-loop step of `netip.parseIPv6`: expand the `::` to the missing
zero fields, requiring it to stand for at least one field. -/
def parseIPv6Post (ip : List Nat) (ellipsis : Option Nat) : Option (List Nat) :=
  if ip.length < 16 then
    match ellipsis with
    | none => none
    | some e => some (ip.take e ++ List.replicate (16 - ip.length) 0 ++ ip.drop e)
  else
    match ellipsis with
    | some _ => none
    | none => some ip

/-- `netip.parseIPv6` as consumed by `net.ParseCIDR`. A zone suffix
after `%` either fails the parse (empty zone) or survives to be
rejected by `ParseCIDR`'s `Zone() != ""` check, so for the CIDR parser
any percent in the address is a failure. -/
def parseIPv6 (s : List Char) : Option (List Nat) :=
  if s.any (fun c => c == Char.ofNat 37) then none
  else
    match s with
    | c1 :: c2 :: rest =>
      if c1 = Char.ofNat 58 ∧ c2 = Char.ofNat 58 then
        match rest with
        | [] => some (List.replicate 16 0)
        | _ :: _ =>
          match parseIPv6Loop 20 rest [] (some 0) with
          | none => none
          | some (ip, ell) => parseIPv6Post ip ell
      else
        match parseIPv6Loop 20 s [] none with
        | none => none
        | some (ip, ell) => parseIPv6Post ip ell
    | _ =>
      match parseIPv6Loop 20 s [] none with
      | none => none
      | some (ip, ell) => parseIPv6Post ip ell

/-- A parsed Go IP address: a 4-byte IPv4 or a 16-byte IPv6 (which
includes the v4-mapped `::ffff:a.b.c.d` block). -/
inductive GoAddr
  | v4 (ip : IPv4)
  | v6 (bytes : List Nat)
deriving DecidableEq, Repr

/-- `netip.Addr.BitLen`: 32 for addresses parsed as IPv4, 128 for any
16-byte address, v4-mapped ones included. -/
def GoAddr.bitLen : GoAddr → Nat
  | .v4 _ => 32
  | .v6 _ => 128

/-- `net.IP.To4`: the identity on 4-byte addresses, the embedded quad
for `::ffff:a.b.c.d`, nil for every other 16-byte address. -/
def GoAddr.to4 : GoAddr → Option IPv4
  | .v4 ip => some ip
  | .v6 b =>
    if b.length = 16 ∧ b.take 10 = List.replicate 10 0 ∧ b.getD 10 0 = 255 ∧ b.getD 11 0 = 255
    then some ⟨b.getD 12 0, b.getD 13 0, b.getD 14 0, b.getD 15 0⟩
    else none

/-- Dispatch scan of `netip.ParseAddr`: the first dot, colon or
percent decides the parser. -/
def firstSpecial : List Char → Option Char
  | [] => none
  | c :: cs =>
    if c = Char.ofNat 46 ∨ c = Char.ofNat 58 ∨ c = Char.ofNat 37 then some c
    else firstSpecial cs

/-- `netip.ParseAddr` as consumed by `net.ParseCIDR`. -/
def parseAddr (s : List Char) : Option GoAddr :=
  match firstSpecial s with
  | some c =>
    if c = Char.ofNat 46 then (parseIPv4 s).map .v4
    else if c = Char.ofNat 58 then (parseIPv6 s).map .v6
    else none
  | none => none

/-- `net.ParseCIDR` over both address families: address and prefix
split at the slash, prefix bounded by the address bit length;
`Mask.Size` then reports the prefix length unchanged. -/
def parseCIDRGo (l : List Char) : Option (GoAddr × Nat) :=
  match splitOnChar (Char.ofNat 47) l with
  | [addr, maskStr] =>
    match parseAddr addr, parseDigits maskStr with
    | some a, some n => if n ≤ a.bitLen then some (a, n) else none
    | _, _ => none
  | _ => none

/-- Outcome of `selectMask30L3Address` over the full address domain:
either the Go return triple or a runtime panic. -/
inductive SelResult
  | ok (peer : Option (Option GoAddr)) (localAddr : Option (Option IPv4)) (err : Option ResolveErr)
  | panicked
deriving DecidableEq, Repr

/-- `selectMask30L3Address` over the full `net.ParseCIDR` domain. In
the `mask == 30` branch the code indexes `peer[0]` on the result of
`To4()` without a nil check, so a 16-byte peer address outside the
v4-mapped block panics with an index-out-of-range runtime error. -/
def selectMask30L3AddressGo (nw : NetworkConfiguration) : SelResult :=
  match splitOnChar (Char.ofNat 32) nw.portDescription.data with
  | _ :: second :: _ =>
    match parseCIDRGo second with
    | none => .ok none none (some (.parseFailed nw.linkName nw.portDescription))
    | some (peerAddr, mask) =>
      if mask = 30 then
        match peerAddr.to4 with
        | some peer =>
          .ok (some (some peerAddr))
            (some (some ⟨peer.a, peer.b, peer.c, Nat.xor peer.d 3⟩)) none
        | none => .panicked
      else
        .ok (some (some peerAddr)) (some none) (some (.wrongMask nw.linkName mask))
  | _ => .ok none none (some (.splitFailed nw.linkName nw.portDescription))

theorem firstSpecial_append_of_none {l₁ : List Char} (l₂ : List Char)
    (h : firstSpecial l₁ = none) : firstSpecial (l₁ ++ l₂) = firstSpecial l₂ := by
  induction l₁ with
  | nil => rfl
  | cons c cs ih =>
    rw [firstSpecial] at h
    rw [List.cons_append, firstSpecial]
    by_cases hc : c = Char.ofNat 46 ∨ c = Char.ofNat 58 ∨ c = Char.ofNat 37
    · rw [if_pos hc] at h
      exact absurd h (by simp)
    · rw [if_neg hc] at h
      rw [if_neg hc]
      exact ih h

theorem firstSpecial_octetChars : ∀ n : Fin 256, firstSpecial (octetChars n.val) = none := by
  decide

theorem firstSpecial_ipv4Chars {ip : IPv4} (h : ip.Valid) :
    firstSpecial (ipv4Chars ip) = some (Char.ofNat 46) := by
  obtain ⟨ha, _, _, _⟩ := h
  rw [ipv4Chars, firstSpecial_append_of_none _ (firstSpecial_octetChars ⟨ip.a, ha⟩),
    firstSpecial, if_pos (Or.inl rfl)]

theorem parseAddr_ipv4Chars {ip : IPv4} (h : ip.Valid) :
    parseAddr (ipv4Chars ip) = some (.v4 ip) := by
  rw [parseAddr, firstSpecial_ipv4Chars h]
  simp [parseIPv4_ipv4Chars h]

theorem parseCIDRGo_ipv4CidrChars {ip : IPv4} {m : Nat} (h : ip.Valid) (hm : m ≤ 32) :
    parseCIDRGo (ipv4CidrChars ip m) = some (.v4 ip, m) := by
  have hm256 : m < 256 := lt_of_le_of_lt hm (by norm_num)
  rw [parseCIDRGo, ipv4CidrChars,
    splitOnChar_append _ _ _ (slash_not_mem_ipv4Chars h),
    splitOnChar_no_sep _ _ (slash_not_mem_octetChars_of_lt hm256)]
  simp [parseAddr_ipv4Chars h, parseDigits_octetChars_of_lt hm256, GoAddr.bitLen, hm]

/-- On dotted-quad descriptions the full model returns exactly the
IPv4 model's triple (so the dotted-quad theorems are statements about
the program, not about a shortcut). -/
theorem selectMask30L3AddressGo_agrees (nw : NetworkConfiguration) (tok : List Char)
    (ip : IPv4) (m : Nat) (htok : Char.ofNat 32 ∉ tok) (h : ip.Valid) (hm : m ≤ 32)
    (hdesc : nw.portDescription.data = tok ++ Char.ofNat 32 :: ipv4CidrChars ip m) :
    selectMask30L3AddressGo nw =
      .ok ((selectMask30L3Address nw).1.map (Option.map GoAddr.v4))
        (selectMask30L3Address nw).2.1 (selectMask30L3Address nw).2.2 := by
  have he := selectMask30L3Address_eq nw tok ip m htok h hm hdesc
  rw [selectMask30L3AddressGo, hdesc, splitOnChar_append _ _ _ htok,
    splitOnChar_no_sep _ _ (space_not_mem_ipv4CidrChars h (lt_of_le_of_lt hm (by norm_num))),
    he]
  by_cases h30 : m = 30
  · subst h30
    simp [parseCIDRGo_ipv4CidrChars h hm, GoAddr.to4]
  · simp [parseCIDRGo_ipv4CidrChars h hm, h30, GoAddr.to4]

/-- C9: the invariant "localAddr present iff portDescription parsed to
a /30 CIDR, anything else a resolution failure and never a crash" is
the spec's clear intent, but the code violates its crash-freedom half:
`net.ParseCIDR` accepts the IPv6 description `no-alert ::1/30` as a
/30 CIDR, the `mask == 30` check passes, `To4()` returns nil, and
`peer[0]` panics — while the v4-mapped `no-alert ::ffff:10.1.2.3/30`
shows the same branch succeeding, so the missing nil check on `To4()`
is the slip. -/
theorem selectMask30L3AddressGo_panics_on_v6 :
    selectMask30L3AddressGo
        { link := some { name := "eth_a", hwAddr := [] },
          portDescription := "no-alert ::1/30" } = .panicked ∧
    parseCIDRGo "::1/30".data =
      some (.v6 [0, 0, 0, 0, 0, 0, 0, 0, 0, 0, 0, 0, 0, 0, 0, 1], 30) ∧
    selectMask30L3AddressGo
        { link := some { name := "eth_a", hwAddr := [] },
          portDescription := "no-alert ::ffff:10.1.2.3/30" } =
      .ok (some (some (.v6 [0, 0, 0, 0, 0, 0, 0, 0, 0, 0, 255, 255, 10, 1, 2, 3])))
        (some (some ⟨10, 1, 2, 0⟩)) none := by
  decide

end NetworkOperator
